import Mathlib

/-!
Shallow embedding of the build-orchestration and version-resolution core of
the `potato_launcher` backend (Python, `src/backend/app`), together with
theorems settling the frozen claims about it.

Conventions of the embedding:
* Network fetches are modelled as explicit `Except String` values or
  functions supplied in an `AdapterEnv` record: `.error e` stands for a
  raised transport exception with message `e`, `.ok v` for the decoded
  response body.
* Python strings are `String`; the Python operations used by the code
  (`split`, `startswith`, slicing, `strip`, `int`, `lower`, `in`) are
  re-implemented over `String.data` so that they evaluate inside the
  kernel.  `int(x)` is modelled for optional-sign decimal literals, and
  `strip`/`lower` for the ASCII range, which covers every string the code
  manipulates (version identifiers, loader names).
* `sorted(xs, key=k, reverse=True)` is modelled by `List.mergeSort` with
  the reflexive descending comparator: both are stable, so they agree.
* Python `set()` iteration order is unspecified; the deduplication in
  `get_forge_loader_versions` is modelled keeping first occurrences
  (`List.eraseDups`), which agrees with the code whenever survivors with
  equal sort keys are absent.
* The mutable `RunnerService` is modelled by an explicit `RunnerState`
  record and functions that return the successor state.
-/

namespace PotatoLauncher

/-! ### Python string and number primitives -/

/-- Splitting a character list at every occurrence of the separator `sep`,
accumulator style; Python `s.split(sep)` semantics for a one-character
separator: no merging of adjacent separators, `"".split(".") = [""]`. -/
def splitOnCharAux (sep : Char) : List Char → List Char → List (List Char)
  | [], acc => [acc.reverse]
  | c :: cs, acc =>
    if c = sep then acc.reverse :: splitOnCharAux sep cs []
    else splitOnCharAux sep cs (c :: acc)

/-- Python `s.split(sep)` for a one-character separator. -/
def pySplitChar (sep : Char) (s : String) : List String :=
  (splitOnCharAux sep s.data []).map String.mk

/-- Python `s.split(".")`. -/
def pySplitDot (s : String) : List String :=
  pySplitChar '.' s

/-- Python `s.startswith(pre)`. -/
def pyStartsWith (s pre : String) : Bool :=
  pre.data.isPrefixOf s.data

/-- Python `s[n:]` (drop the first `n` characters). -/
def strDrop (s : String) (n : Nat) : String :=
  String.mk (s.data.drop n)

/-- Substring occurrence on character lists. -/
def listContainsSub (s pat : List Char) : Bool :=
  pat.isPrefixOf s ||
    match s with
    | [] => false
    | _ :: tail => listContainsSub tail pat

/-- Python `pat in s` substring test. -/
def strContains (s pat : String) : Bool :=
  listContainsSub s.data pat.data

/-- Python `s.strip()` on character lists (ASCII whitespace). -/
def pyTrimChars (cs : List Char) : List Char :=
  ((cs.dropWhile Char.isWhitespace).reverse.dropWhile Char.isWhitespace).reverse

/-- Python `s.strip()`. -/
def pyStrip (s : String) : String :=
  String.mk (pyTrimChars s.data)

/-- The value of a nonempty all-digit character list, `none` otherwise. -/
def digitsToNat? (cs : List Char) : Option Nat :=
  if cs ≠ [] ∧ cs.all Char.isDigit then
    some (cs.foldl (fun n c => n * 10 + (c.toNat - '0'.toNat)) 0)
  else none

/-- Python `int(x)` on the strings the code feeds it: surrounding
whitespace stripped, an optional sign, then decimal digits; anything else
raises `ValueError`, modelled as `none`. -/
def pyInt? (s : String) : Option Int :=
  match pyTrimChars s.data with
  | '-' :: rest => (digitsToNat? rest).map (fun n => -(n : Int))
  | '+' :: rest => (digitsToNat? rest).map (fun n => (n : Int))
  | cs => (digitsToNat? cs).map (fun n => (n : Int))

/-- Python `c.lower()` for one character (ASCII). -/
def pyCharLower (c : Char) : Char :=
  if 'A' ≤ c ∧ c ≤ 'Z' then Char.ofNat (c.toNat + 32) else c

/-- Python `s.lower()` (ASCII). -/
def pyLower (s : String) : String :=
  String.mk (s.data.map pyCharLower)

/-- Python `<` on `list[int]`: lexicographic, a strict prefix is smaller. -/
def pyListLt : List Int → List Int → Bool
  | [], [] => false
  | [], _ :: _ => true
  | _ :: _, [] => false
  | a :: as, b :: bs => if a < b then true else if b < a then false else pyListLt as bs

/-- Python `sorted(xs, key=key, reverse=True)`: stable descending sort by
a `list[int]` key. -/
def pySortDescBy (key : String → List Int) (xs : List String) : List String :=
  xs.mergeSort (fun a b => ! pyListLt (key a) (key b))

/-- The output shape guaranteed by `sorted(..., key=key, reverse=True)`:
no later element has a strictly larger key. -/
def SortedDescBy (key : String → List Int) (xs : List String) : Prop :=
  xs.Pairwise (fun a b => pyListLt (key a) (key b) = false)

/-! ### Adapter B: forge (`src/backend/app/integrations/forge_loader.py`)

The fetched maven-metadata JSON map is modelled as an association list from
Minecraft version to the raw full-version strings. -/

/-- `_version_key` from `forge_loader.py`: split on `.`, each part parsed
with `int()`, `ValueError` mapped to `0`. -/
def forge_version_key (v : String) : List Int :=
  (pySplitDot v).map (fun x => (pyInt? x).getD 0)

/-- `data.get(mc_version, [])` on the fetched forge metadata map. -/
def forgeVersionsFor (data : List (String × List String)) (mc_version : String) :
    List String :=
  ((data.find? (fun p => p.1 == mc_version)).map (fun p => p.2)).getD []

/-- The loop body of `get_forge_loader_versions`: strip the
`"{mc_version}-"` head from each raw entry carrying it, keep the others
verbatim. -/
def forgeStripped (data : List (String × List String)) (mc_version : String) :
    List String :=
  (forgeVersionsFor data mc_version).map (fun full_ver =>
    if pyStartsWith full_ver (mc_version ++ "-") then
      strDrop full_ver (mc_version ++ "-").length
    else full_ver)

/-- `get_forge_loader_versions`, pure part after the metadata fetch:
`sorted(set(result), key=_version_key, reverse=True)`. -/
def get_forge_loader_versions_pure
    (data : List (String × List String)) (mc_version : String) : List String :=
  pySortDescBy forge_version_key (forgeStripped data mc_version).eraseDups

/-- `get_forge_loader_versions` with the fetch explicit: a transport error
propagates. -/
def get_forge_loader_versions
    (fetch : Except String (List (String × List String))) (mc_version : String) :
    Except String (List String) :=
  fetch.map (fun data => get_forge_loader_versions_pure data mc_version)

/-- `forge_has_loader_for`: `bool(data.get(mc_version))`. -/
def forge_has_loader_for
    (fetch : Except String (List (String × List String))) (mc_version : String) :
    Except String Bool :=
  fetch.map (fun data =>
    match data.find? (fun p => p.1 == mc_version) with
    | some p => ! p.2.isEmpty
    | none => false)

/-! ### Adapter C: neoforge (`src/backend/app/integrations/neoforge_loader.py`) -/

/-- `_mc_to_neoforge_prefix` from `neoforge_loader.py`:
`"1.20.4" ↦ "20.4."`, `"1.21" ↦ "21.0."`, fewer than two dot-separated
components ↦ `""`. -/
def mcToNeoforgePrefix (mc_version : String) : String :=
  match pySplitDot mc_version with
  | _ :: p1 :: p2 :: _ => p1 ++ "." ++ p2 ++ "."
  | [_, p1] => p1 ++ ".0."
  | _ => ""

/-- `_version_key_numeric`: truncate at the first `-`
(`ver.split("-", 1)[0]`), then split on `.`, each part parsed with
`int()`, `ValueError` mapped to `0`. -/
def neoforge_version_key_numeric (ver : String) : List Int :=
  let base := String.mk (ver.data.takeWhile (fun c => c ≠ '-'))
  (pySplitDot base).map (fun p => (pyInt? p).getD 0)

/-- `get_neoforge_loader_versions`, pure part after the manifest fetch:
filter to the derived numeric head, partition into stable/beta by the
`"-beta"` marker, sort each partition descending, concatenate. -/
def get_neoforge_loader_versions_pure (pre : String) (all_versions : List String) :
    List String :=
  let matched := all_versions.filter (fun v => pyStartsWith v pre)
  let stable := matched.filter (fun v => ! strContains v "-beta")
  let beta := matched.filter (fun v => strContains v "-beta")
  pySortDescBy neoforge_version_key_numeric stable
    ++ pySortDescBy neoforge_version_key_numeric beta

/-- `get_neoforge_loader_versions`: an empty derived head short-circuits to
`[]` without fetching; otherwise the fetched manifest is filtered and
sorted. -/
def get_neoforge_loader_versions
    (fetch : Except String (List String)) (mc_version : String) :
    Except String (List String) :=
  let pre := mcToNeoforgePrefix mc_version
  if pre = "" then .ok []
  else fetch.map (get_neoforge_loader_versions_pure pre)

/-- `neoforge_has_loader_for`: an empty derived head short-circuits to
`false` without fetching. -/
def neoforge_has_loader_for
    (fetch : Except String (List String)) (mc_version : String) :
    Except String Bool :=
  let pre := mcToNeoforgePrefix mc_version
  if pre = "" then .ok false
  else fetch.map (fun all => all.any (fun v => pyStartsWith v pre))

/-- The sort key exactly as the claim states it for adapter C: dot-decompose
the whole entry string, non-numeric segments become `0` — with no
truncation at the first hyphen.  Kept separate so it can be compared
against `neoforge_version_key_numeric`, which the code actually uses. -/
def claimDotDecompositionKey (v : String) : List Int :=
  (pySplitDot v).map (fun p => (pyInt? p).getD 0)

/-! ### Adapter A: fabric (`src/backend/app/integrations/fabric_loader.py`)

A fetched item is modelled as `Option (Option String)`:
`item.get("loader")` collapsed to presence/truthiness, then
`loader.get("version")`. -/

/-- `get_fabric_loader_versions`, pure part after the meta fetch: extract
each truthy `loader.version`, then first-seen-order dedup (the explicit
`seen` set loop in the code). -/
def get_fabric_loader_versions_pure (items : List (Option (Option String))) :
    List String :=
  (items.filterMap (fun item =>
    match item with
    | some (some ver) => if ver = "" then none else some ver
    | _ => none)).eraseDups

/-- `get_fabric_loader_versions` with the fetch explicit (a 404/400 from
the service is already decoded to `.ok []` by `_fetch_fabric_meta`). -/
def get_fabric_loader_versions
    (fetch : Except String (List (Option (Option String)))) :
    Except String (List String) :=
  fetch.map get_fabric_loader_versions_pure

/-- `fabric_has_loader_for`: `len(items) > 0`. -/
def fabric_has_loader_for
    (fetch : Except String (List (Option (Option String)))) :
    Except String Bool :=
  fetch.map (fun items => ! items.isEmpty)

/-! ### Adapter D: vanilla (`src/backend/app/integrations/vanilla_versions.py`)

A manifest entry is modelled as `(v.get("id"), v.get("type"))`. -/

/-- `get_vanilla_version_list`, pure part after the manifest fetch: keep
entries with a truthy id, filtered by type when a type is requested, in
manifest order. -/
def get_vanilla_version_list_pure (version_type : Option String)
    (manifest : List (Option String × Option String)) : List String :=
  manifest.filterMap (fun v =>
    match v.1 with
    | none => none
    | some vid =>
      if vid = "" then none
      else
        match version_type with
        | none => some vid
        | some t => if v.2 == some t then some vid else none)

/-! ### Version resolution service (`src/backend/app/services/mc_versions_service.py`)

`alru_cache` memoizes the coroutines; the cache never changes the value
computed, so the embedding is the uncached function over a fixed
environment of upstream responses. -/

/-- The loader-family enum (`app/models/modpack.py`, `LoaderType`),
declared in the order `vanilla, forge, fabric, neoforge`. -/
inductive LoaderType where
  | vanilla
  | forge
  | fabric
  | neoforge
deriving DecidableEq, Repr

/-- `LoaderType(s)`: the enum constructor, `ValueError` as `none`. -/
def LoaderType.ofString? (s : String) : Option LoaderType :=
  if s == "vanilla" then some .vanilla
  else if s == "forge" then some .forge
  else if s == "fabric" then some .fabric
  else if s == "neoforge" then some .neoforge
  else none

/-- `loader_type.value`. -/
def LoaderType.value : LoaderType → String
  | .vanilla => "vanilla"
  | .forge => "forge"
  | .fabric => "fabric"
  | .neoforge => "neoforge"

/-- One fixed snapshot of every upstream response the resolution layer can
request. -/
structure AdapterEnv where
  fabricMeta : String → Except String (List (Option (Option String)))
  forgeMeta : Except String (List (String × List String))
  neoforgeMeta : Except String (List String)
  mojangManifest : Except String (List (Option String × Option String))

/-- `get_vanilla_versions()` (no type filter). -/
def get_vanilla_versions (env : AdapterEnv) : Except String (List String) :=
  env.mojangManifest.map (get_vanilla_version_list_pure none)

/-- `get_loaders_for_version`: vanilla membership first, then the fabric,
forge, neoforge probes, in that order; any probe failure propagates. -/
def get_loaders_for_version (env : AdapterEnv) (version : String) :
    Except String (List LoaderType) := do
  let vanilla_versions ← get_vanilla_versions env
  let fab ← fabric_has_loader_for (env.fabricMeta version)
  let fog ← forge_has_loader_for env.forgeMeta version
  let neo ← neoforge_has_loader_for env.neoforgeMeta version
  return (if vanilla_versions.contains version then [LoaderType.vanilla] else [])
    ++ (if fab then [LoaderType.fabric] else [])
    ++ (if fog then [LoaderType.forge] else [])
    ++ (if neo then [LoaderType.neoforge] else [])

/-- `get_loader_versions(version, loader)`: lower-case the loader name,
then dispatch: vanilla is the singleton of the game version itself, the
three adapter families delegate, anything else is the empty list. -/
def get_loader_versions (env : AdapterEnv) (version loader : String) :
    Except String (List String) :=
  let l := pyLower loader
  if l == "vanilla" then .ok [version]
  else if l == "fabric" then get_fabric_loader_versions (env.fabricMeta version)
  else if l == "forge" then get_forge_loader_versions env.forgeMeta version
  else if l == "neoforge" then get_neoforge_loader_versions env.neoforgeMeta version
  else .ok []

/-! ### Spec documents and validation
(`src/backend/app/services/runner_service.py`, `_validate_spec`) -/

/-- JSON values as `json.loads` produces them (numbers restricted to the
integers, which is all the spec schema uses). -/
inductive JValue where
  | null
  | bool (b : Bool)
  | num (n : Int)
  | str (s : String)
  | arr (items : List JValue)
  | obj (fields : List (String × JValue))

/-- Python dict lookup `d.get(key)` on a decoded JSON object. -/
def jLookup (fields : List (String × JValue)) (key : String) : Option JValue :=
  (fields.find? (fun p => p.1 == key)).map (fun p => p.2)

/-- The string payload of a field already checked to be a string. -/
def jStr (v : Option JValue) : String :=
  match v with
  | some (.str s) => s
  | _ => ""

/-- The exception `fastapi.HTTPException(status_code, detail)`. -/
structure HTTPException where
  status : Nat
  detail : String
deriving DecidableEq, Repr

/-- Characters `urlparse` accepts inside a scheme. -/
def isSchemeChar (c : Char) : Bool :=
  c.isAlphanum || c = '+' || c = '-' || c = '.'

/-- Split `cs` at its first `:` provided everything before it is made of
scheme characters. -/
def splitScheme : List Char → List Char → Option (List Char × List Char)
  | [], _ => none
  | c :: cs, acc =>
    if c = ':' then some (acc.reverse, cs)
    else if isSchemeChar c then splitScheme cs (c :: acc)
    else none

/-- Model of `urllib.parse.urlparse` restricted to the two components
`_ensure_url` reads: the scheme (lower-cased; present when the string has
a nonempty `scheme:` head starting with a letter) and the netloc (present
after `//`, ending at the next `/`, `?` or `#`). -/
def urlparseSchemeNetloc (s : String) : String × String :=
  let parts :=
    match splitScheme s.data [] with
    | some (sch, rest) =>
      if sch ≠ [] ∧ (sch.headD '0').isAlpha then
        (String.mk (sch.map pyCharLower), String.mk rest)
      else ("", s)
    | none => ("", s)
  let netloc :=
    if pyStartsWith parts.2 "//" then
      String.mk ((parts.2.data.drop 2).takeWhile
        (fun c => c ≠ '/' ∧ c ≠ '?' ∧ c ≠ '#'))
    else ""
  (parts.1, netloc)

/-- `RunnerService._ensure_url`. -/
def ensure_url (value : JValue) (field_name : String) : Except HTTPException Unit :=
  match value with
  | .str s =>
    if pyStrip s = "" then
      .error ⟨422, "Field '" ++ field_name ++ "' must be a non-empty URL string"⟩
    else
      let parsed := urlparseSchemeNetloc s
      if (parsed.1 == "http" || parsed.1 == "https") && parsed.2 ≠ "" then .ok ()
      else .error ⟨422, "Field '" ++ field_name ++ "' must be a valid HTTP or HTTPS URL"⟩
  | _ => .error ⟨422, "Field '" ++ field_name ++ "' must be a non-empty URL string"⟩

/-- `required_root_fields` in `_validate_spec`. -/
def requiredRootFields : List String :=
  ["download_server_base", "resources_url_base", "version_manifest_url", "versions"]

/-- `version_required_fields` in `_validate_spec`. -/
def entryRequiredFields : List String :=
  ["name", "minecraft_version", "loader_name", "loader_version", "include_from"]

/-- The first listed key missing from a decoded JSON object. -/
def firstMissingKey (fields : List (String × JValue)) : List String → Option String
  | [] => none
  | k :: ks => if (jLookup fields k).isNone then some k else firstMissingKey fields ks

/-- The per-entry required-field loop of `_validate_spec`: each field must
be present, a string, and non-blank after `strip()`; first failure wins. -/
def checkEntryFields (idx : Nat) (cfg : List (String × JValue)) :
    List String → Except HTTPException Unit
  | [] => .ok ()
  | f :: fs =>
    match jLookup cfg f with
    | none =>
      .error ⟨422, "Field 'versions[" ++ toString idx ++ "]." ++ f ++ "' is required"⟩
    | some (.str s) =>
      if pyStrip s = "" then
        .error ⟨422, "Field 'versions[" ++ toString idx ++ "]." ++ f
          ++ "' must be a non-empty string"⟩
      else checkEntryFields idx cfg fs
    | some _ =>
      .error ⟨422, "Field 'versions[" ++ toString idx ++ "]." ++ f
        ++ "' must be a non-empty string"⟩

/-- The per-entry cross-checks of `_validate_spec`, after the field checks:
vanilla membership of the game version, loader-name enum membership,
loader-family availability, loader-release membership — failing fast in
that order. -/
def validateEntryChecks (env : AdapterEnv) (vanilla_versions : List String)
    (idx : Nat) (cfg : List (String × JValue)) : Except HTTPException Unit :=
  if ! vanilla_versions.contains (jStr (jLookup cfg "minecraft_version")) then
    .error ⟨422, "versions[" ++ toString idx ++ "].minecraft_version '"
      ++ jStr (jLookup cfg "minecraft_version")
      ++ "' is not a known Minecraft version"⟩
  else
    match LoaderType.ofString? (pyLower (jStr (jLookup cfg "loader_name"))) with
    | none =>
      .error ⟨422, "versions[" ++ toString idx
        ++ "].loader_name must be one of: vanilla, forge, fabric, neoforge"⟩
    | some loader_type =>
      match get_loaders_for_version env (jStr (jLookup cfg "minecraft_version")) with
      | .error exc =>
        .error ⟨503, "Failed to determine loaders for Minecraft "
          ++ jStr (jLookup cfg "minecraft_version") ++ ": " ++ exc⟩
      | .ok loaders_for_version =>
        if ! loaders_for_version.contains loader_type then
          .error ⟨422, "versions[" ++ toString idx ++ "].loader_name '"
            ++ loader_type.value ++ "' is not available for Minecraft "
            ++ jStr (jLookup cfg "minecraft_version")⟩
        else
          match get_loader_versions env (jStr (jLookup cfg "minecraft_version"))
              loader_type.value with
          | .error exc =>
            .error ⟨503, "Failed to fetch loader versions for Minecraft "
              ++ jStr (jLookup cfg "minecraft_version") ++ " and loader "
              ++ loader_type.value ++ ": " ++ exc⟩
          | .ok loader_versions =>
            if ! loader_versions.contains (jStr (jLookup cfg "loader_version")) then
              .error ⟨422, "versions[" ++ toString idx ++ "].loader_version '"
                ++ jStr (jLookup cfg "loader_version")
                ++ "' is not available for Minecraft "
                ++ jStr (jLookup cfg "minecraft_version")
                ++ " (" ++ loader_type.value ++ ")"⟩
            else .ok ()

/-- One iteration of the entry loop of `_validate_spec`. -/
def validateEntry (env : AdapterEnv) (vanilla_versions : List String)
    (idx : Nat) (cfg : JValue) : Except HTTPException Unit :=
  match cfg with
  | .obj fields => do
    checkEntryFields idx fields entryRequiredFields
    validateEntryChecks env vanilla_versions idx fields
  | _ => .error ⟨422, "versions[" ++ toString idx ++ "] must be a JSON object"⟩

/-- The entry loop of `_validate_spec`. -/
def validateEntries (env : AdapterEnv) (vanilla_versions : List String) :
    Nat → List JValue → Except HTTPException Unit
  | _, [] => .ok ()
  | idx, cfg :: rest => do
    validateEntry env vanilla_versions idx cfg
    validateEntries env vanilla_versions (idx + 1) rest

/-- `_validate_spec` on a decoded document: object shape, required root
fields, non-empty version list, the three URL fields, the vanilla fetch,
then every entry in order. -/
def validateSpecDoc (env : AdapterEnv) (raw : JValue) : Except HTTPException Unit :=
  match raw with
  | .obj fields =>
    match firstMissingKey fields requiredRootFields with
    | some k => .error ⟨422, "Field '" ++ k ++ "' is required"⟩
    | none =>
      match jLookup fields "versions" with
      | some (.arr versions) =>
        if versions.isEmpty then
          .error ⟨422, "Field 'versions' must be a non-empty list"⟩
        else do
          ensure_url ((jLookup fields "download_server_base").getD .null)
            "download_server_base"
          ensure_url ((jLookup fields "resources_url_base").getD .null)
            "resources_url_base"
          ensure_url ((jLookup fields "version_manifest_url").getD .null)
            "version_manifest_url"
          match get_vanilla_versions env with
          | .error exc =>
            .error ⟨503, "Failed to fetch vanilla versions: " ++ exc⟩
          | .ok vanilla_versions =>
            validateEntries env vanilla_versions 0 versions
      | some _ => .error ⟨422, "Field 'versions' must be a non-empty list"⟩
      | none => .error ⟨422, "Field 'versions' must be a non-empty list"⟩
  | _ => .error ⟨422, "Spec file must be a JSON object"⟩

/-- How reading and decoding the spec file can fail before validation
proper starts. -/
inductive SpecReadError where
  | fileNotFound (exc : String)
  | osError (exc : String)
  | jsonDecodeError (exc : String)

/-- `_validate_spec` end to end: the read/decode phase mapped to 404, 500
and 422 as in the code, then `validateSpecDoc`. -/
def validateSpec (env : AdapterEnv) (specSource : Except SpecReadError JValue) :
    Except HTTPException Unit :=
  match specSource with
  | .error (.fileNotFound _) => .error ⟨404, "Spec file not found"⟩
  | .error (.osError exc) => .error ⟨500, "Unable to read spec file: " ++ exc⟩
  | .error (.jsonDecodeError exc) =>
    .error ⟨422, "Spec file must contain valid JSON: " ++ exc⟩
  | .ok raw => validateSpecDoc env raw

/-! ### Job controller (`src/backend/app/services/runner_service.py`) -/

/-- The mutable fields of `RunnerService`: `_busy`, `_message`, and the
in-flight build task `_task` (a task is identified by a number). -/
structure RunnerState where
  busy : Bool
  message : Option String
  task : Option Nat
deriving DecidableEq, Repr

/-- What one `run_build` call did: the successor state, the value returned
or exception raised, whether a new build task was spawned, and whether
`_broadcast_status` was invoked. -/
structure RunOutcome where
  state : RunnerState
  result : Except HTTPException Bool
  spawned : Bool
  notified : Bool
deriving Repr

/-- `RunnerService.run_build`: validate first; under the lock, reject with
409 while busy, otherwise mark busy, store `"running"`, spawn the builder
task (`tok` names the fresh task), then broadcast; returns `True`. -/
def run_build (env : AdapterEnv) (specSource : Except SpecReadError JValue)
    (st : RunnerState) (tok : Nat) : RunOutcome :=
  match validateSpec env specSource with
  | .error e => ⟨st, .error e, false, false⟩
  | .ok () =>
    if st.busy then
      ⟨st, .error ⟨409, "Another build is already running"⟩, false, false⟩
    else
      ⟨⟨true, some "running", some tok⟩, .ok true, true, true⟩

/-- How the awaited child process can conclude, as seen by
`_execute_instance_builder`: an exit code, a missing executable
(`FileNotFoundError`), or any other exception. -/
inductive BuildProcResult where
  | exited (code : Int)
  | fileNotFound (exc : String)
  | raised (exc : String)

/-- `RunnerService._execute_instance_builder`, from the child's conclusion
to the successor state: store the terminal message, clear `_busy`
(every path also broadcasts afterwards). -/
def execute_instance_builder (res : BuildProcResult) (st : RunnerState) :
    RunnerState :=
  match res with
  | .exited code =>
    { st with
      message := some (if code = 0 then "ok"
        else "failed (code " ++ toString code ++ ")")
      busy := false }
  | .fileNotFound exc =>
    { st with message := some ("command not found: " ++ exc), busy := false }
  | .raised exc =>
    { st with message := some ("failed: " ++ exc), busy := false }

/-- `RunnerService.is_running`. -/
def is_running (st : RunnerState) : Bool :=
  st.busy

/-- The `/modpacks/build/status` route (`get_build_status`). -/
def get_build_status (st : RunnerState) : String :=
  if is_running st then "running" else "idle"

/-! ### Status broadcaster (`src/backend/app/services/connection_manager.py`)

Observers are identified by numbers; `send` is the send attempt for this
broadcast, `.error` standing for a raised send exception. -/

/-- The `for` loop of `notify_all`: in iteration order, deliver where the
send succeeds and collect the failing observers; returns
`(delivered, to_remove)`. -/
def notifyAllLoop (send : Nat → Except String Unit) :
    List Nat → List Nat × List Nat
  | [] => ([], [])
  | c :: cs =>
    let rest := notifyAllLoop send cs
    match send c with
    | .ok () => (c :: rest.1, rest.2)
    | .error _ => (rest.1, c :: rest.2)

/-- `ConnectionManager.notify_all`: every send exception is caught, the
failed observers are dropped from the connection list, and the call
returns normally; the payload is `(new connection list, delivered)`. -/
def notify_all (connections : List Nat) (send : Nat → Except String Unit) :
    Except String (List Nat × List Nat) :=
  let step := notifyAllLoop send connections
  let to_remove := step.2
  let new_connections :=
    if to_remove.isEmpty then connections
    else connections.filter (fun c => ! to_remove.contains c)
  .ok (new_connections, step.1)

/-- `RunnerService._broadcast_status`: nothing to do without observers;
otherwise `notify_all`, any escaping exception swallowed. -/
def broadcast_status (connections : List Nat) (send : Nat → Except String Unit) :
    List Nat :=
  if connections.isEmpty then connections
  else
    match notify_all connections send with
    | .ok (new_connections, _) => new_connections
    | .error _ => connections

/-! ### The build routes (`src/backend/app/routers/modpacks.py`) -/

/-- What one call of the build route did: the response or exception, the
controller state afterwards, and whether the `"Failed to build modpacks"`
400 branch (the falsiness test on `run_build`'s return value) executed. -/
structure BuildRouteOutcome where
  response : Except HTTPException Bool
  state : RunnerState
  failedBuildBranch : Bool
deriving Repr

/-- The `POST /modpacks/build` route: refuse an empty modpack store, run
the build, map a falsy return value to 400, else return `True`. -/
def build_route (modpackCount : Nat) (env : AdapterEnv)
    (specSource : Except SpecReadError JValue) (st : RunnerState) (tok : Nat) :
    BuildRouteOutcome :=
  if modpackCount == 0 then
    ⟨.error ⟨400, "Modpacks should be more than 0"⟩, st, false⟩
  else
    let o := run_build env specSource st tok
    match o.result with
    | .error e => ⟨.error e, o.state, false⟩
    | .ok is_success =>
      if ! is_success then
        ⟨.error ⟨400, "Failed to build modpacks"⟩, o.state, true⟩
      else ⟨.ok true, o.state, false⟩

/-- Whether an `Except` computation returned normally. -/
def exceptOk {ε α : Type} (e : Except ε α) : Bool :=
  match e with
  | .ok _ => true
  | .error _ => false

/-! ### Fixtures shared by witnesses: a healthy upstream snapshot and a
spec document that passes validation against it. -/

/-- A healthy upstream snapshot: one vanilla release `1.20.1`, no third
party loaders. -/
def envW : AdapterEnv :=
  { fabricMeta := fun _ => .ok []
    forgeMeta := .ok []
    neoforgeMeta := .ok []
    mojangManifest := .ok [(some "1.20.1", some "release")] }

/-- One valid version entry for `envW`. -/
def entryW : List (String × JValue) :=
  [("name", .str "main"),
   ("minecraft_version", .str "1.20.1"),
   ("loader_name", .str "vanilla"),
   ("loader_version", .str "1.20.1"),
   ("include_from", .str "modpacks/1")]

/-- A spec document that passes `validateSpecDoc` against `envW`. -/
def specW : JValue :=
  .obj
    [("download_server_base", .str "https://example.com/dl"),
     ("resources_url_base", .str "https://example.com/res"),
     ("version_manifest_url", .str "https://example.com/manifest.json"),
     ("versions", .arr [.obj entryW])]

/-- A version entry whose `minecraft_version` is unknown to `envW`. -/
def entryBadMcW : List (String × JValue) :=
  [("name", .str "main"),
   ("minecraft_version", .str "9.9.9"),
   ("loader_name", .str "vanilla"),
   ("loader_version", .str "9.9.9"),
   ("include_from", .str "modpacks/1")]

/-- `specW` with its entry replaced by `entryBadMcW`: validation against
`envW` fails at the version-membership check. -/
def specBadMcW : JValue :=
  .obj
    [("download_server_base", .str "https://example.com/dl"),
     ("resources_url_base", .str "https://example.com/res"),
     ("version_manifest_url", .str "https://example.com/manifest.json"),
     ("versions", .arr [.obj entryBadMcW])]

/-! ## Helper lemmas -/

/-- Python list `<` is asymmetric. -/
theorem pyListLt_asymm : ∀ a b : List Int,
    pyListLt a b = true → pyListLt b a = false := by
  intro a
  induction a with
  | nil =>
    intro b _
    cases b <;> simp [pyListLt]
  | cons x xs ih =>
    intro b hab
    cases b with
    | nil => simp [pyListLt] at hab
    | cons y ys =>
      simp only [pyListLt] at hab ⊢
      split_ifs at hab ⊢ <;> try omega
      · rfl
      · exact ih ys hab

/-- The complement of Python list `<` is transitive. -/
theorem pyListLt_negtrans : ∀ a b c : List Int,
    pyListLt a b = false → pyListLt b c = false → pyListLt a c = false := by
  intro a
  induction a with
  | nil =>
    intro b c hab hbc
    cases b with
    | nil => cases c with
      | nil => rfl
      | cons z zs => simp [pyListLt] at hbc
    | cons y ys => simp [pyListLt] at hab
  | cons x xs ih =>
    intro b c hab hbc
    cases c with
    | nil => rfl
    | cons z zs =>
      cases b with
      | nil => simp [pyListLt] at hbc
      | cons y ys =>
        simp only [pyListLt] at hab hbc ⊢
        split_ifs at hab hbc ⊢ <;>
          first
          | rfl
          | omega
          | exact ih ys zs hab hbc

/-- The descending comparator used by `pySortDescBy` is transitive. -/
theorem pySortDesc_comparator_trans (key : String → List Int) :
    ∀ a b c : String, (! pyListLt (key a) (key b)) →
      (! pyListLt (key b) (key c)) → (! pyListLt (key a) (key c)) := by
  intro a b c hab hbc
  simp only [Bool.not_eq_true'] at hab hbc ⊢
  exact pyListLt_negtrans _ _ _ hab hbc

/-- The descending comparator used by `pySortDescBy` is total. -/
theorem pySortDesc_comparator_total (key : String → List Int) :
    ∀ a b : String,
      ((! pyListLt (key a) (key b)) || (! pyListLt (key b) (key a))) = true := by
  intro a b
  rcases h : pyListLt (key a) (key b) with _ | _
  · simp [h]
  · simp [pyListLt_asymm _ _ h]

/-- `pySortDescBy` permutes its input. -/
theorem pySortDescBy_perm (key : String → List Int) (xs : List String) :
    (pySortDescBy key xs).Perm xs :=
  List.mergeSort_perm xs _

/-- `pySortDescBy` sorts descending by the key. -/
theorem pySortDescBy_sorted (key : String → List Int) (xs : List String) :
    SortedDescBy key (pySortDescBy key xs) := by
  have h := @List.sorted_mergeSort String (fun a b => ! pyListLt (key a) (key b))
    (pySortDesc_comparator_trans key) (pySortDesc_comparator_total key) xs
  exact h.imp (fun hab => by simpa [Bool.not_eq_true'] using hab)

/-- Membership in the `eraseDups` worker. -/
theorem mem_eraseDups_loop {α : Type} [BEq α] [LawfulBEq α] (x : α) :
    ∀ (as bs : List α), x ∈ List.eraseDups.loop as bs ↔ x ∈ as ∨ x ∈ bs := by
  intro as
  induction as with
  | nil => intro bs; simp [List.eraseDups.loop]
  | cons a as ih =>
    intro bs
    simp only [List.eraseDups.loop]
    rcases h : bs.elem a with _ | _
    · simp only [ih, List.mem_cons]
      tauto
    · have ha : a ∈ bs := by simpa using h
      simp only [ih, List.mem_cons]
      constructor
      · tauto
      · rintro ((rfl | hx) | hx) <;> tauto

/-- The `eraseDups` worker returns a duplicate-free list when the
accumulator is duplicate-free. -/
theorem nodup_eraseDups_loop {α : Type} [BEq α] [LawfulBEq α] :
    ∀ (as bs : List α), bs.Nodup → (List.eraseDups.loop as bs).Nodup := by
  intro as
  induction as with
  | nil => intro bs hb; simpa [List.eraseDups.loop] using hb
  | cons a as ih =>
    intro bs hb
    simp only [List.eraseDups.loop]
    rcases h : bs.elem a with _ | _
    · refine ih (a :: bs) (List.nodup_cons.mpr ⟨?_, hb⟩)
      simpa using h
    · exact ih bs hb

/-- `eraseDups` removes exactly the duplicates: membership is preserved. -/
theorem mem_eraseDups {α : Type} [BEq α] [LawfulBEq α] (x : α) (l : List α) :
    x ∈ l.eraseDups ↔ x ∈ l := by
  simpa [List.eraseDups] using mem_eraseDups_loop x l []

/-- `eraseDups` returns a duplicate-free list. -/
theorem nodup_eraseDups {α : Type} [BEq α] [LawfulBEq α] (l : List α) :
    l.eraseDups.Nodup := by
  simpa [List.eraseDups] using nodup_eraseDups_loop l [] List.nodup_nil

/-- The delivered component of the `notify_all` loop: exactly the
observers whose send succeeded, in order. -/
theorem notifyAllLoop_fst (send : Nat → Except String Unit) :
    ∀ cs : List Nat,
      (notifyAllLoop send cs).1 = cs.filter (fun c => exceptOk (send c)) := by
  intro cs
  induction cs with
  | nil => rfl
  | cons c cs ih =>
    simp only [notifyAllLoop, List.filter_cons]
    rcases h : send c with e | v
    · simp [exceptOk, h, ih]
    · simp [exceptOk, h, ih]

/-- The removal component of the `notify_all` loop: exactly the observers
whose send failed, in order. -/
theorem notifyAllLoop_snd (send : Nat → Except String Unit) :
    ∀ cs : List Nat,
      (notifyAllLoop send cs).2 = cs.filter (fun c => ! exceptOk (send c)) := by
  intro cs
  induction cs with
  | nil => rfl
  | cons c cs ih =>
    simp only [notifyAllLoop, List.filter_cons]
    rcases h : send c with e | v
    · simp [exceptOk, h, ih]
    · simp [exceptOk, h, ih]

/-! ## The claims -/

/-- C1.  A submit while the busy flag is set is rejected with HTTP 409 and
changes nothing: given that validation passed, `run_build` on a busy state
returns the state unchanged (busy flag, stored message and in-flight task
included), spawns no task, queues nothing and broadcasts nothing. -/
theorem C1_run_build_conflict (env : AdapterEnv)
    (specSource : Except SpecReadError JValue) (st : RunnerState) (tok : Nat)
    (hval : validateSpec env specSource = .ok ()) (hbusy : st.busy = true) :
    run_build env specSource st tok
      = ⟨st, .error ⟨409, "Another build is already running"⟩, false, false⟩ := by
  unfold run_build
  rw [hval, hbusy]
  rfl

/-- Witness for C1: a concrete valid spec against a busy controller. -/
theorem C1_run_build_conflict_witness :
    validateSpec envW (.ok specW) = .ok ()
    ∧ run_build envW (.ok specW) ⟨true, some "running", some 5⟩ 6
        = ⟨⟨true, some "running", some 5⟩,
           .error ⟨409, "Another build is already running"⟩, false, false⟩ :=
  ⟨rfl, C1_run_build_conflict envW (.ok specW) ⟨true, some "running", some 5⟩ 6 rfl rfl⟩

/-- C2.  For an entry that passes the per-entry field checks but whose
`minecraft_version` is not in the vanilla version set, validation fails at
the version-membership check with the 422 naming `minecraft_version` — for
every adapter environment, so neither the loader-family-availability check
nor the loader-release-membership check for that entry is consulted; and
whenever validation fails, `run_build` starts no build and changes no
state. -/
theorem C2_version_membership_fails_fast :
    (∀ (env : AdapterEnv) (vanilla_versions : List String) (idx : Nat)
        (cfg : List (String × JValue)),
      checkEntryFields idx cfg entryRequiredFields = .ok () →
      vanilla_versions.contains (jStr (jLookup cfg "minecraft_version")) = false →
      validateEntry env vanilla_versions idx (.obj cfg)
        = .error ⟨422, "versions[" ++ toString idx ++ "].minecraft_version '"
            ++ jStr (jLookup cfg "minecraft_version")
            ++ "' is not a known Minecraft version"⟩)
    ∧ (∀ (env : AdapterEnv) (specSource : Except SpecReadError JValue)
        (st : RunnerState) (tok : Nat) (e : HTTPException),
      validateSpec env specSource = .error e →
      run_build env specSource st tok = ⟨st, .error e, false, false⟩) := by
  constructor
  · intro env vanilla_versions idx cfg hf hmc
    show (checkEntryFields idx cfg entryRequiredFields >>= fun _ =>
      validateEntryChecks env vanilla_versions idx cfg) = _
    rw [hf]
    show validateEntryChecks env vanilla_versions idx cfg = _
    unfold validateEntryChecks
    simp only [hmc, Bool.not_false, if_pos]
  · intro env specSource st tok e h
    unfold run_build
    rw [h]

/-- Witness for C2: a concrete entry with an unknown game version, and the
spec carrying it leaving the controller untouched. -/
theorem C2_version_membership_fails_fast_witness :
    validateEntry envW ["1.20.1"] 0 (.obj entryBadMcW)
      = .error ⟨422, "versions[" ++ toString (0 : Nat) ++ "].minecraft_version '"
          ++ jStr (jLookup entryBadMcW "minecraft_version")
          ++ "' is not a known Minecraft version"⟩
    ∧ run_build envW (.ok specBadMcW) ⟨false, none, none⟩ 0
      = ⟨⟨false, none, none⟩,
         .error ⟨422,
           "versions[0].minecraft_version '9.9.9' is not a known Minecraft version"⟩,
         false, false⟩ :=
  ⟨C2_version_membership_fails_fast.1 envW ["1.20.1"] 0 entryBadMcW rfl rfl,
   C2_version_membership_fails_fast.2 envW (.ok specBadMcW) ⟨false, none, none⟩ 0
     ⟨422, "versions[0].minecraft_version '9.9.9' is not a known Minecraft version"⟩
     rfl⟩

/-- C3.  When the child process exits, the controller returns to idle with
the terminal message: exit code 0 clears the busy flag and stores `"ok"`;
a nonzero code clears the busy flag and stores a message containing the
code; the status route then reports `"idle"` in both cases. -/
theorem C3_process_exit_terminal (st : RunnerState) (code : Int) :
    (execute_instance_builder (.exited 0) st).busy = false
    ∧ (execute_instance_builder (.exited 0) st).message = some "ok"
    ∧ get_build_status (execute_instance_builder (.exited 0) st) = "idle"
    ∧ (execute_instance_builder (.exited code) st).busy = false
    ∧ (code ≠ 0 → ∃ pre post,
        (execute_instance_builder (.exited code) st).message
          = some (pre ++ toString code ++ post))
    ∧ get_build_status (execute_instance_builder (.exited code) st) = "idle" := by
  refine ⟨rfl, rfl, rfl, rfl, ?_, rfl⟩
  intro hc
  refine ⟨"failed (code ", ")", ?_⟩
  simp [execute_instance_builder, hc]

/-- Witness for C3: exit code 7. -/
theorem C3_process_exit_terminal_witness :
    (7 : Int) ≠ 0
    ∧ ∃ pre post,
        (execute_instance_builder (.exited 7) ⟨true, some "running", some 0⟩).message
          = some (pre ++ toString (7 : Int) ++ post) :=
  ⟨by decide,
    (C3_process_exit_terminal ⟨true, some "running", some 0⟩ 7).2.2.2.2.1 (by decide)⟩

/-- C7.  Broadcast delivery is best-effort and fault-isolated: whatever the
observer list and whichever sends fail, `notify_all` returns normally, the
message is delivered to exactly the observers whose send succeeded, and
exactly the failed observers are removed from the connection list. -/
theorem C7_notify_all_best_effort (connections : List Nat)
    (send : Nat → Except String Unit) :
    notify_all connections send
      = .ok (connections.filter (fun c => exceptOk (send c)),
             connections.filter (fun c => exceptOk (send c))) := by
  unfold notify_all
  simp only [notifyAllLoop_fst, notifyAllLoop_snd]
  by_cases h : (connections.filter (fun c => ! exceptOk (send c))).isEmpty
  · rw [if_pos h]
    have hnil := List.isEmpty_iff.mp h
    have hall : ∀ c ∈ connections, exceptOk (send c) := by
      intro c hcmem
      have := List.filter_eq_nil_iff.mp hnil c hcmem
      simpa using this
    rw [List.filter_eq_self.mpr hall]
  · rw [if_neg h]
    congr 2
    apply List.filter_congr
    intro c hcmem
    by_cases hc : exceptOk (send c)
    · simp [hc, List.mem_filter]
    · simp [hc, List.mem_filter, hcmem]

/-- C9.  `run_build` only ever returns `True` when it returns normally, so
the build route's `"Failed to build modpacks"` 400 branch, which tests
that return value for falsiness, can never execute. -/
theorem C9_falsy_branch_unreachable :
    (∀ (env : AdapterEnv) (specSource : Except SpecReadError JValue)
        (st : RunnerState) (tok : Nat) (v : Bool),
      (run_build env specSource st tok).result = .ok v → v = true)
    ∧ (∀ (modpackCount : Nat) (env : AdapterEnv)
        (specSource : Except SpecReadError JValue) (st : RunnerState) (tok : Nat),
      (build_route modpackCount env specSource st tok).failedBuildBranch = false) := by
  have hok : ∀ (env : AdapterEnv) (specSource : Except SpecReadError JValue)
      (st : RunnerState) (tok : Nat) (v : Bool),
      (run_build env specSource st tok).result = .ok v → v = true := by
    intro env specSource st tok v h
    unfold run_build at h
    rcases hv : validateSpec env specSource with e | u
    · rw [hv] at h
      cases h
    · rw [hv] at h
      by_cases hb : st.busy
      · rw [if_pos hb] at h
        cases h
      · rw [if_neg hb] at h
        cases h
        rfl
  refine ⟨hok, ?_⟩
  intro modpackCount env specSource st tok
  unfold build_route
  by_cases hc : (modpackCount == 0)
  · rw [if_pos hc]
  · rw [if_neg hc]
    rcases hr : (run_build env specSource st tok).result with e | v
    · simp [hr]
    · have hv := hok env specSource st tok v hr
      simp [hr, hv]

/-- Witness for C9: a concrete successful run returns `True`. -/
theorem C9_falsy_branch_unreachable_witness :
    (run_build envW (.ok specW) ⟨false, none, none⟩ 0).result = .ok true
    ∧ true = true :=
  ⟨rfl, C9_falsy_branch_unreachable.1 envW (.ok specW) ⟨false, none, none⟩ 0 true rfl⟩

unseal List.merge List.mergeSort in
/-- C4.  The forge adapter strips the `"{mc_version}-"` head from each
matching raw entry (keeping non-matching entries verbatim, the content of
`forgeStripped`), removes duplicates, and sorts descending by the
dot-decomposition key with non-numeric segments as 0; on the raw list
`["1.20.1-47.2.0", "1.20.1-47.1.0", "1.20.1-47.2.0"]` for `"1.20.1"` it
returns `["47.2.0", "47.1.0"]`. -/
theorem C4_forge_strip_dedup_sort :
    (∀ (data : List (String × List String)) (mc_version : String),
      (get_forge_loader_versions_pure data mc_version).Perm
          (forgeStripped data mc_version).eraseDups
      ∧ (get_forge_loader_versions_pure data mc_version).Nodup
      ∧ (∀ v, v ∈ get_forge_loader_versions_pure data mc_version ↔
          v ∈ forgeStripped data mc_version)
      ∧ SortedDescBy forge_version_key (get_forge_loader_versions_pure data mc_version))
    ∧ get_forge_loader_versions
        (.ok [("1.20.1", ["1.20.1-47.2.0", "1.20.1-47.1.0", "1.20.1-47.2.0"])])
        "1.20.1"
      = .ok ["47.2.0", "47.1.0"] := by
  constructor
  · intro data mc_version
    refine ⟨pySortDescBy_perm _ _, ?_, ?_, pySortDescBy_sorted _ _⟩
    · exact ((pySortDescBy_perm _ _).nodup_iff).mpr (nodup_eraseDups _)
    · intro v
      unfold get_forge_loader_versions_pure
      rw [(pySortDescBy_perm forge_version_key
        (forgeStripped data mc_version).eraseDups).mem_iff, mem_eraseDups]
  · rfl

unseal List.merge List.mergeSort in
/-- C5 counterexample.  The claim sorts each neoforge partition by the key
that dot-decomposes the whole entry with non-numeric segments as 0
(`claimDotDecompositionKey`); the code truncates at the first hyphen
first.  On the manifest `["20.4.90-beta.2", "20.4.100-beta.1"]` for game
version `"1.20.4"` both entries match the `"20.4."` head and both are
beta, yet the code returns `"20.4.100-beta.1"` first although its
claim-key `[20, 4, 0, 1]` is strictly below `[20, 4, 0, 2]`, so the
returned beta partition is not descending under the claim's key. -/
theorem C5_neoforge_key_counterexample :
    get_neoforge_loader_versions (.ok ["20.4.90-beta.2", "20.4.100-beta.1"]) "1.20.4"
      = .ok ["20.4.100-beta.1", "20.4.90-beta.2"]
    ∧ pyStartsWith "20.4.90-beta.2" (mcToNeoforgePrefix "1.20.4") = true
    ∧ pyStartsWith "20.4.100-beta.1" (mcToNeoforgePrefix "1.20.4") = true
    ∧ strContains "20.4.90-beta.2" "-beta" = true
    ∧ strContains "20.4.100-beta.1" "-beta" = true
    ∧ pyListLt (claimDotDecompositionKey "20.4.100-beta.1")
        (claimDotDecompositionKey "20.4.90-beta.2") = true :=
  ⟨rfl, rfl, rfl, rfl, rfl, rfl⟩

/-- C5 (amended).  For every game version with a valid derived numeric
head, the neoforge adapter returns exactly the manifest entries starting
with that head, the stable ones (no `"-beta"` marker) before the beta
ones, each partition sorted descending by the numeric key obtained by
truncating the entry at its first hyphen and dot-decomposing the
remainder with non-numeric segments as 0. -/
theorem C5_neoforge_listing (mc_version : String) (all_versions : List String)
    (h : mcToNeoforgePrefix mc_version ≠ "") :
    ∃ s b,
      get_neoforge_loader_versions (.ok all_versions) mc_version = .ok (s ++ b)
      ∧ s.Perm ((all_versions.filter
          (fun v => pyStartsWith v (mcToNeoforgePrefix mc_version))).filter
          (fun v => ! strContains v "-beta"))
      ∧ b.Perm ((all_versions.filter
          (fun v => pyStartsWith v (mcToNeoforgePrefix mc_version))).filter
          (fun v => strContains v "-beta"))
      ∧ SortedDescBy neoforge_version_key_numeric s
      ∧ SortedDescBy neoforge_version_key_numeric b := by
  refine ⟨_, _, ?_, pySortDescBy_perm _ _, pySortDescBy_perm _ _,
    pySortDescBy_sorted _ _, pySortDescBy_sorted _ _⟩
  unfold get_neoforge_loader_versions
  rw [if_neg h]
  rfl

/-- Witness for C5: game version `"1.20.4"` over a small manifest. -/
theorem C5_neoforge_listing_witness :
    mcToNeoforgePrefix "1.20.4" ≠ ""
    ∧ ∃ s b,
      get_neoforge_loader_versions
          (.ok ["20.4.1", "20.4.30-beta", "20.4.2", "20.5.9"]) "1.20.4"
        = .ok (s ++ b)
      ∧ s.Perm (((["20.4.1", "20.4.30-beta", "20.4.2", "20.5.9"] : List String).filter
          (fun v => pyStartsWith v (mcToNeoforgePrefix "1.20.4"))).filter
          (fun v => ! strContains v "-beta"))
      ∧ b.Perm (((["20.4.1", "20.4.30-beta", "20.4.2", "20.5.9"] : List String).filter
          (fun v => pyStartsWith v (mcToNeoforgePrefix "1.20.4"))).filter
          (fun v => strContains v "-beta"))
      ∧ SortedDescBy neoforge_version_key_numeric s
      ∧ SortedDescBy neoforge_version_key_numeric b :=
  ⟨by decide,
    C5_neoforge_listing "1.20.4" ["20.4.1", "20.4.30-beta", "20.4.2", "20.5.9"]
      (by decide)⟩

/-- C6.  The neoforge numeric head: `"1.20.4"` yields `"20.4."`, `"1.21"`
yields `"21.0."`; in general three or more dot components yield
`"{minor}.{patch}."`, exactly two yield `"{minor}.0."`, and fewer than
two yield no head at all, upon which the adapter reports no releases and
an empty list without consulting the fetched manifest. -/
theorem C6_neoforge_head_derivation :
    mcToNeoforgePrefix "1.20.4" = "20.4."
    ∧ mcToNeoforgePrefix "1.21" = "21.0."
    ∧ (∀ gv p0 p1 p2 rest, pySplitDot gv = p0 :: p1 :: p2 :: rest →
        mcToNeoforgePrefix gv = p1 ++ "." ++ p2 ++ ".")
    ∧ (∀ gv p0 p1, pySplitDot gv = [p0, p1] →
        mcToNeoforgePrefix gv = p1 ++ ".0.")
    ∧ (∀ (gv : String) (fetch : Except String (List String)),
        (pySplitDot gv).length < 2 →
        mcToNeoforgePrefix gv = ""
        ∧ neoforge_has_loader_for fetch gv = .ok false
        ∧ get_neoforge_loader_versions fetch gv = .ok []) := by
  refine ⟨rfl, rfl, ?_, ?_, ?_⟩
  · intro gv p0 p1 p2 rest hsplit
    unfold mcToNeoforgePrefix
    rw [hsplit]
  · intro gv p0 p1 hsplit
    unfold mcToNeoforgePrefix
    rw [hsplit]
  · intro gv fetch hlen
    have hpre : mcToNeoforgePrefix gv = "" := by
      unfold mcToNeoforgePrefix
      rcases hsplit : pySplitDot gv with _ | ⟨a, _ | ⟨b, t⟩⟩
      · rfl
      · rfl
      · rw [hsplit] at hlen
        simp only [List.length_cons] at hlen
        omega
    refine ⟨hpre, ?_, ?_⟩
    · unfold neoforge_has_loader_for
      rw [hpre]
      rfl
    · unfold get_neoforge_loader_versions
      rw [hpre]
      rfl

/-- Witness for C6: the general component rules at `"1.20.4"` and
`"1.21"`, and the one-component game version `"121"` against a failing
fetch — the adapter still reports no releases. -/
theorem C6_neoforge_head_derivation_witness :
    mcToNeoforgePrefix "1.20.4" = "20" ++ "." ++ "4" ++ "."
    ∧ mcToNeoforgePrefix "1.21" = "21" ++ ".0."
    ∧ (pySplitDot "121").length < 2
    ∧ mcToNeoforgePrefix "121" = ""
    ∧ neoforge_has_loader_for (.error "upstream down") "121" = .ok false
    ∧ get_neoforge_loader_versions (.error "upstream down") "121" = .ok [] :=
  ⟨C6_neoforge_head_derivation.2.2.1 "1.20.4" "1" "20" "4" [] rfl,
   C6_neoforge_head_derivation.2.2.2.1 "1.21" "1" "21" rfl,
   by decide,
   C6_neoforge_head_derivation.2.2.2.2 "121" (.error "upstream down") (by decide)⟩

/-- C8.  `get_loader_versions`: the vanilla family is the singleton of the
game version itself for every adapter environment (so no adapter is
consulted); a loader name outside the closed family set yields the empty
list; each recognized third-party family delegates to its adapter. -/
theorem C8_loader_versions_dispatch :
    (∀ (env : AdapterEnv) (gv : String),
      get_loader_versions env gv "vanilla" = .ok [gv])
    ∧ (∀ (env : AdapterEnv) (gv loader : String),
      pyLower loader ∉ (["vanilla", "fabric", "forge", "neoforge"] : List String) →
      get_loader_versions env gv loader = .ok [])
    ∧ (∀ (env : AdapterEnv) (gv : String),
      get_loader_versions env gv "fabric"
          = get_fabric_loader_versions (env.fabricMeta gv)
      ∧ get_loader_versions env gv "forge"
          = get_forge_loader_versions env.forgeMeta gv
      ∧ get_loader_versions env gv "neoforge"
          = get_neoforge_loader_versions env.neoforgeMeta gv) := by
  refine ⟨fun env gv => rfl, ?_, fun env gv => ⟨rfl, rfl, rfl⟩⟩
  intro env gv loader h
  simp only [List.mem_cons, List.not_mem_nil, or_false, not_or] at h
  obtain ⟨h1, h2, h3, h4⟩ := h
  unfold get_loader_versions
  simp [beq_iff_eq, h1, h2, h3, h4]

/-- Witness for C8: the unrecognized loader name `"Quilt"`. -/
theorem C8_loader_versions_dispatch_witness :
    pyLower "Quilt" ∉ (["vanilla", "fabric", "forge", "neoforge"] : List String)
    ∧ get_loader_versions envW "1.20.1" "Quilt" = .ok [] :=
  ⟨by decide, C8_loader_versions_dispatch.2.1 envW "1.20.1" "Quilt" (by decide)⟩

/-- C10.  A vanilla entry passes validation only with `loader_version`
equal to its `minecraft_version`: the release list resolved for the
vanilla family is exactly the singleton of the game version, so the
release-membership check pins the two strings together. -/
theorem C10_vanilla_pins_loader_version (env : AdapterEnv)
    (vanilla_versions : List String) (idx : Nat) (cfg : List (String × JValue))
    (hok : validateEntry env vanilla_versions idx (.obj cfg) = .ok ())
    (hvan : pyLower (jStr (jLookup cfg "loader_name")) = "vanilla") :
    jStr (jLookup cfg "loader_version") = jStr (jLookup cfg "minecraft_version") := by
  have hok' : validateEntryChecks env vanilla_versions idx cfg = .ok () := by
    have hbind : (checkEntryFields idx cfg entryRequiredFields >>= fun _ =>
        validateEntryChecks env vanilla_versions idx cfg) = .ok () := hok
    rcases hcf : checkEntryFields idx cfg entryRequiredFields with e | u
    · rw [hcf] at hbind
      cases hbind
    · rw [hcf] at hbind
      exact hbind
  unfold validateEntryChecks at hok'
  rw [hvan] at hok'
  split at hok'
  · cases hok'
  · split at hok'
    · cases hok'
    · rename_i loader_type hsome
      have hlt : loader_type = LoaderType.vanilla := by
        have : some LoaderType.vanilla = some loader_type := hsome
        exact (Option.some_inj.mp this).symm
      subst hlt
      split at hok'
      · cases hok'
      · split at hok'
        · cases hok'
        · split at hok'
          · cases hok'
          · rename_i loader_versions hlv
            have hval : get_loader_versions env
                (jStr (jLookup cfg "minecraft_version")) LoaderType.vanilla.value
                  = .ok [jStr (jLookup cfg "minecraft_version")] := rfl
            rw [hval] at hlv
            have hconc := Except.ok.inj hlv
            subst hconc
            split at hok'
            · cases hok'
            · rename_i hmem
              rw [Bool.not_eq_true', Bool.not_eq_false] at hmem
              have := List.elem_iff.mp hmem
              simpa using this

/-- Witness for C10: the concrete valid vanilla entry of `specW`. -/
theorem C10_vanilla_pins_loader_version_witness :
    validateEntry envW ["1.20.1"] 0 (.obj entryW) = .ok ()
    ∧ pyLower (jStr (jLookup entryW "loader_name")) = "vanilla"
    ∧ jStr (jLookup entryW "loader_version") = jStr (jLookup entryW "minecraft_version") :=
  ⟨rfl, rfl, C10_vanilla_pins_loader_version envW ["1.20.1"] 0 entryW rfl rfl⟩

end PotatoLauncher
